import Mathlib

/-!
# Valentine quiz: the quiz state machine of `src/js/app.js`

A shallow embedding of the state-bearing methods of `ValentineQuizApp`
(`constructor`, `startQuiz`, `showQuestion`, `submitAnswer`, `showResults`,
`restartQuiz`, `getState`, `renderPlayfulOptions`, `handleOptionClick`) as
functions on an explicit application state.

Modelling conventions:

* A JavaScript number is a `JsNum`: a finite value, `NaN`, or an infinity.
  A finite value is the rational number the double stands for, and `+` on
  finite values rounds the exact sum to the nearest double, ties to even,
  overflowing to an infinity (IEEE 754 binary64). The sign of zero is not
  modelled.
* The contents of `#app` are recorded as the list of screens rendered so far
  (`rendered`); `console.error` calls are recorded in `diagnostics`.
* `Date.now()` is an argument of `submitAnswer`.
* A `TypeError` raised in the middle of a method is an `Outcome.threw`
  carrying the state when it was raised.
* Question indices are integers, as all callers pass integers.
* A button is its class tokens and its `data-*` attributes; `setTimeout`
  callbacks are kept in a list of pending timers, and the remaining effects of
  a click (alert, style changes, animations) in a list of effects.
* An integer of magnitude at most `2 ^ 53` prints as its decimal digits inside
  a template literal; the text of larger values (shortest digits that read
  back as the same double, exponent form from `10 ^ 21` on) is a parameter
  (`largeForm`). `parseInt` reads white space, a sign, an optional `0x` marker
  and the longest run of digits, and returns the nearest double.
-/

namespace Valentine

/-! ## JavaScript values -/

/-- A JavaScript number: finite (exact), `NaN`, or a signed infinity. -/
inductive JsNum where
  | fin (q : Rat)
  | nan
  | posInf
  | negInf
  deriving DecidableEq, Repr

namespace JsNum

/-- The number with integer value `z`. -/
def ofInt (z : Int) : JsNum := fin (z : Rat)

/-- The test `Number.isInteger`. -/
def isInteger : JsNum → Bool
  | fin q => decide (q.den = 1)
  | _ => false

/-- The integer nearest to `num / den`, a tie going to the even one. -/
def roundHalfEven (num den : Nat) : Nat :=
  let q := num / den
  let r := num % den
  if 2 * r < den then q
  else if den < 2 * r then q + 1
  else if q % 2 = 0 then q else q + 1

/-- The position of the leading binary digit of `n`, found in at most `fuel`
halvings. -/
def log2Fuel : Nat → Nat → Nat
  | 0, _ => 0
  | fuel + 1, n => if n < 2 then 0 else log2Fuel fuel (n / 2) + 1

/-- The position of the leading binary digit of `n`: for positive `n`, the `k`
with `2 ^ k ≤ n < 2 ^ (k + 1)`. -/
def log2 (n : Nat) : Nat := log2Fuel n n

/-- The binary exponent of `n / d` for positive `n` and `d`: the integer `e`
with `2 ^ e ≤ n / d < 2 ^ (e + 1)`. -/
def floorLog2 (n d : Nat) : Int :=
  let e0 : Int := (log2 n : Int) - (log2 d : Int)
  if 0 ≤ e0 then
    if 2 ^ e0.toNat * d ≤ n then e0 else e0 - 1
  else
    if d ≤ 2 ^ (-e0).toNat * n then e0 else e0 - 1

/-- The double nearest to `n / d` (with `d` positive), as a pair `(m, ex)`
standing for `m * 2 ^ ex`: the mantissa `m` has at most 53 binary digits and
the exponent `ex` is at least `-1074`; `none` when the result overflows the
largest finite double. -/
def roundMagnitude (n d : Nat) : Option (Nat × Int) :=
  if n = 0 then some (0, 0)
  else
    let ex : Int := max (floorLog2 n d - 52) (-1074)
    let m : Nat :=
      if 0 ≤ ex then roundHalfEven n (d * 2 ^ ex.toNat)
      else roundHalfEven (n * 2 ^ (-ex).toNat) d
    if 971 < ex ∨ (ex = 971 ∧ 2 ^ 53 ≤ m) then none else some (m, ex)

/-- The rational number `z * 2 ^ ex`. -/
def scaled (z : Int) (ex : Int) : Rat :=
  if 0 ≤ ex then ((z * 2 ^ ex.toNat : Int) : Rat) else mkRat z (2 ^ (-ex).toNat)

/-- The double nearest to `num / den` (with `den` positive), ties to even; an
infinity on overflow. -/
def roundRatio (num : Int) (den : Nat) : JsNum :=
  match roundMagnitude num.natAbs den with
  | none => if num < 0 then negInf else posInf
  | some (m, ex) => fin (scaled (if num < 0 then -(m : Int) else (m : Int)) ex)

/-- The `+` operator on two numbers: on finite values, the exact sum
`(a.num * b.den + b.num * a.den) / (a.den * b.den)` rounded to the nearest
double. -/
def add : JsNum → JsNum → JsNum
  | fin a, fin b => roundRatio (a.num * b.den + b.num * a.den) (a.den * b.den)
  | nan, _ => nan
  | _, nan => nan
  | posInf, negInf => nan
  | negInf, posInf => nan
  | posInf, _ => posInf
  | negInf, _ => negInf
  | fin _, posInf => posInf
  | fin _, negInf => negInf

/-- Truthiness of a number: `0` and `NaN` are falsy. -/
def truthy : JsNum → Bool
  | fin q => decide (q ≠ 0)
  | nan => false
  | _ => true

end JsNum

/-- A primitive JavaScript value; an absent property reads as `undefined`. -/
inductive JsVal where
  | undefined
  | null
  | bool (b : Bool)
  | num (n : JsNum)
  | str (s : String)
  deriving DecidableEq, Repr

namespace JsVal

/-- The `typeof` operator. -/
def typeof : JsVal → String
  | undefined => "undefined"
  | null => "object"
  | bool _ => "boolean"
  | num _ => "number"
  | str _ => "string"

/-- Truthiness, as used by `!v` and `v || w`. -/
def truthy : JsVal → Bool
  | undefined => false
  | null => false
  | bool b => b
  | num n => n.truthy
  | str s => decide (s ≠ "")

/-- The `||` operator with a right operand that may raise: the right operand is
evaluated only when the left one is falsy. -/
def orElse (v : JsVal) (w : Option JsVal) : Option JsVal :=
  if v.truthy then some v else w

end JsVal

/-- The object literal handed to `submitAnswer`. -/
structure AnswerObj where
  questionId : JsVal
  optionIndex : JsVal
  points : JsVal
  deriving DecidableEq, Repr

/-- The argument of `submitAnswer`: a primitive (such as `null` or
`undefined`) or an answer object. -/
inductive JsArg where
  | prim (v : JsVal)
  | obj (a : AnswerObj)
  deriving DecidableEq, Repr

namespace JsArg

/-- Truthiness of the argument: every object is truthy. -/
def truthy : JsArg → Bool
  | prim v => v.truthy
  | obj _ => true

/-- The property read `answer.points`; a primitive has no such property. -/
def points : JsArg → JsVal
  | prim _ => JsVal.undefined
  | obj a => a.points

/-- The property read `answer.questionId`. -/
def questionId : JsArg → JsVal
  | prim _ => JsVal.undefined
  | obj a => a.questionId

/-- The property read `answer.optionIndex`. -/
def optionIndex : JsArg → JsVal
  | prim _ => JsVal.undefined
  | obj a => a.optionIndex

end JsArg

/-! ## Static question data -/

/-- Modelled from the spec: the Option record of `questions.js` (display text,
integer point value, optional special action tag). -/
structure QOption where
  text : String
  points : Int
  action : Option String
  deriving DecidableEq, Repr

/-- Modelled from the spec: the Question record of `questions.js` (integer
identifier, prompt text, type, ordered options). -/
structure Question where
  id : Int
  question : String
  type : String
  options : List QOption
  deriving DecidableEq, Repr

/-- The array read `questions[i]`: `none` stands for `undefined`. -/
def lookup (questions : List Question) (i : Int) : Option Question :=
  if 0 ≤ i then questions.get? i.toNat else none

/-! ## Application state -/

/-- The record pushed onto `this.answers` by `submitAnswer`. -/
structure AnswerRecord where
  questionId : JsVal
  selectedOption : JsVal
  points : JsVal
  timestamp : Nat
  deriving DecidableEq, Repr

/-- A screen written into the application container, identified by the data
its markup is computed from. -/
inductive Screen where
  | welcome
  | question (questionIndex : Int)
  | results (answers : List AnswerRecord)
  deriving DecidableEq, Repr

/-- A `console.error` call. -/
inductive Diagnostic where
  | invalidIndex (questionIndex : Int)
  | invalidAnswer (answer : JsArg)
  deriving DecidableEq, Repr

/-- The fields of a `ValentineQuizApp` instance, with the render and
diagnostic traces. -/
structure App where
  currentQuestion : Int
  score : JsNum
  answers : List AnswerRecord
  totalQuestions : Nat
  noClickCount : Nat
  rendered : List Screen
  diagnostics : List Diagnostic
  deriving DecidableEq, Repr

/-- The result of running a method: it returned, or it raised a `TypeError`,
in either case leaving a state behind. -/
inductive Outcome where
  | done (s : App)
  | threw (s : App)
  deriving DecidableEq, Repr

/-- The state a method leaves behind. -/
def Outcome.state : Outcome → App
  | done s => s
  | threw s => s

/-- Whether the method returned normally. -/
def Outcome.returned : Outcome → Bool
  | done _ => true
  | threw _ => false

/-- The screen currently shown: the last one rendered. -/
def App.screen (s : App) : Option Screen := s.rendered.getLast?

/-! ## Methods of `ValentineQuizApp` -/

/-- The `constructor`. -/
def constructor (questions : List Question) : App :=
  { currentQuestion := 0
    score := JsNum.ofInt 0
    answers := []
    totalQuestions := questions.length
    noClickCount := 0
    rendered := []
    diagnostics := [] }

/-- The method `getQuestionHTML`: `none` when `questions[questionIndex]` is
`undefined`, in which case reading `question.type` raises. -/
def getQuestionHTML (questions : List Question) (questionIndex : Int) : Option Screen :=
  match lookup questions questionIndex with
  | none => none
  | some _ => some (Screen.question questionIndex)

/-- The method `showWelcomeScreen`. -/
def showWelcomeScreen (s : App) : App :=
  { s with rendered := s.rendered ++ [Screen.welcome] }

/-- The method `startQuiz`. -/
def startQuiz (questions : List Question) (s : App) : Outcome :=
  let s1 := { s with currentQuestion := 0, score := JsNum.ofInt 0, answers := [] }
  match getQuestionHTML questions 0 with
  | none => Outcome.threw s1
  | some nextScreen => Outcome.done { s1 with rendered := s1.rendered ++ [nextScreen] }

/-- The method `showQuestion`. -/
def showQuestion (questions : List Question) (s : App) (questionIndex : Int) : Outcome :=
  if questionIndex < 0 ∨ questionIndex ≥ (s.totalQuestions : Int) then
    Outcome.done { s with diagnostics := s.diagnostics ++ [Diagnostic.invalidIndex questionIndex] }
  else
    let s1 := { s with currentQuestion := questionIndex }
    match getQuestionHTML questions questionIndex with
    | none => Outcome.threw s1
    | some html => Outcome.done { s1 with rendered := s1.rendered ++ [html] }

/-- The method `showResults`. -/
def showResults (s : App) : Outcome :=
  Outcome.done { s with rendered := s.rendered ++ [Screen.results s.answers] }

/-- The method `submitAnswer`; `now` is the value of `Date.now()`. -/
def submitAnswer (questions : List Question) (now : Nat) (s : App) (answer : JsArg) : Outcome :=
  if !answer.truthy || answer.points.typeof != "number" then
    Outcome.done { s with diagnostics := s.diagnostics ++ [Diagnostic.invalidAnswer answer] }
  else
    match answer.points with
    | JsVal.num points =>
      match answer.questionId.orElse
          ((lookup questions s.currentQuestion).map fun q => JsVal.num (JsNum.ofInt q.id)) with
      | none => Outcome.threw s
      | some questionId =>
        let answerRecord : AnswerRecord :=
          { questionId := questionId
            selectedOption := answer.optionIndex
            points := answer.points
            timestamp := now }
        let s1 := { s with answers := s.answers ++ [answerRecord] }
        let s2 := { s1 with score := s1.score.add points }
        if s2.currentQuestion < (s2.totalQuestions : Int) - 1 then
          showQuestion questions s2 (s2.currentQuestion + 1)
        else
          showResults s2
    | _ => Outcome.done { s with diagnostics := s.diagnostics ++ [Diagnostic.invalidAnswer answer] }

/-- The method `restartQuiz`. -/
def restartQuiz (s : App) : Outcome :=
  let s1 := { s with currentQuestion := 0, score := JsNum.ofInt 0, answers := [] }
  Outcome.done (showWelcomeScreen s1)

/-- The object returned by `getState`. -/
structure StateView where
  currentQuestion : Int
  score : JsNum
  answers : List AnswerRecord
  totalQuestions : Nat
  isComplete : Bool
  deriving DecidableEq, Repr

/-- The method `getState`. -/
def getState (s : App) : StateView :=
  { currentQuestion := s.currentQuestion
    score := s.score
    answers := s.answers
    totalQuestions := s.totalQuestions
    isComplete := decide (s.currentQuestion ≥ (s.totalQuestions : Int)) &&
      decide (s.answers.length = s.totalQuestions) }

/-! ## Sequences of calls -/

/-- A call made on the application by an event handler. -/
inductive Command where
  | startQuiz
  | restartQuiz
  | submitAnswer (now : Nat) (answer : JsArg)
  | showQuestion (questionIndex : Int)
  deriving DecidableEq, Repr

/-- Running one call. -/
def step (questions : List Question) (s : App) : Command → Outcome
  | Command.startQuiz => startQuiz questions s
  | Command.restartQuiz => restartQuiz s
  | Command.submitAnswer now answer => submitAnswer questions now s answer
  | Command.showQuestion i => showQuestion questions s i

/-- Running calls one after another; a call that raises ends its own handler
only, so the next call runs on the state left behind. -/
def run (questions : List Question) (s : App) (cmds : List Command) : App :=
  cmds.foldl (fun st c => (step questions st c).state) s

/-- Submitting a list of timestamped answer objects in order. -/
def submitAll (questions : List Question) (s : App) (answers : List (Nat × AnswerObj)) : App :=
  answers.foldl (fun st a => (submitAnswer questions a.1 st (JsArg.obj a.2)).state) s

/-- An answer object with integer fields. -/
def mkAnswer (questionId optionIndex points : Int) : AnswerObj :=
  { questionId := JsVal.num (JsNum.ofInt questionId)
    optionIndex := JsVal.num (JsNum.ofInt optionIndex)
    points := JsVal.num (JsNum.ofInt points) }

/-- A sample question list of the given ids, used for concrete runs. -/
def sampleQuestions (ids : List Int) : List Question :=
  ids.map fun i => { id := i, question := "q", type := "multiple-choice", options := [] }

/-- The rational number five halves, a non-integral point value. -/
def twoAndHalf : Rat := { num := 5, den := 2, den_nz := by decide, reduced := by decide }

/-- The record `submitAnswer` builds from an answer object: `none` when the
fallback `questions[this.currentQuestion].id` raises. -/
def answerRecordOf (questions : List Question) (now : Nat) (s : App) (a : AnswerObj) :
    Option AnswerRecord :=
  (a.questionId.orElse
      ((lookup questions s.currentQuestion).map fun q => JsVal.num (JsNum.ofInt q.id))).map
    fun questionId =>
      { questionId := questionId
        selectedOption := a.optionIndex
        points := a.points
        timestamp := now }

/-- Five sample questions with ids 1 to 5. -/
def fiveQuestions : List Question := sampleQuestions [1, 2, 3, 4, 5]

/-- Five timestamped answers carrying the points 10, 5, 10, -5, 10. -/
def fiveAnswers : List (Nat × AnswerObj) :=
  [(100, mkAnswer 1 0 10), (200, mkAnswer 2 1 5), (300, mkAnswer 3 0 10),
   (400, mkAnswer 4 2 (-5)), (500, mkAnswer 5 0 10)]

/-- Two sample questions with ids 7 and 8. -/
def twoQuestions : List Question := sampleQuestions [7, 8]

/-- Two timestamped answers carrying the integer points `2 ^ 53` and 1. -/
def largeAnswers : List (Nat × AnswerObj) :=
  [(100, mkAnswer 7 0 9007199254740992), (200, mkAnswer 8 0 1)]

/-- A state on the first of two questions whose score is the integer
`2 ^ 53`, with one record already in the log. -/
def largeScoreApp : App :=
  { currentQuestion := 0
    score := JsNum.ofInt 9007199254740992
    answers := [{ questionId := JsVal.num (JsNum.ofInt 7),
                  selectedOption := JsVal.num (JsNum.ofInt 0),
                  points := JsVal.num (JsNum.ofInt 9007199254740992), timestamp := 50 }]
    totalQuestions := 2
    noClickCount := 0
    rendered := [Screen.question 0]
    diagnostics := [] }

/-- A state on the second of two questions, with one answer logged and
score 5. -/
def midQuizApp : App :=
  { currentQuestion := 1
    score := JsNum.ofInt 5
    answers := [{ questionId := JsVal.num (JsNum.ofInt 7),
                  selectedOption := JsVal.num (JsNum.ofInt 0),
                  points := JsVal.num (JsNum.ofInt 5), timestamp := 100 }]
    totalQuestions := 2
    noClickCount := 2
    rendered := [Screen.question 0, Screen.question 1]
    diagnostics := [] }

/-- An answer object whose points value is the non-integral number 2.5. -/
def fractionalAnswer : AnswerObj :=
  { questionId := JsVal.num (JsNum.ofInt 7)
    optionIndex := JsVal.num (JsNum.ofInt 0)
    points := JsVal.num (JsNum.fin twoAndHalf) }

/-- An answer object whose points value is `NaN`, as `parseInt` yields for a
malformed attribute. -/
def nanAnswer : AnswerObj :=
  { questionId := JsVal.num (JsNum.ofInt 7)
    optionIndex := JsVal.num (JsNum.ofInt 0)
    points := JsVal.num JsNum.nan }

/-- An answer object whose points value is the string `"10"`. -/
def stringAnswer : AnswerObj :=
  { questionId := JsVal.num (JsNum.ofInt 7)
    optionIndex := JsVal.num (JsNum.ofInt 0)
    points := JsVal.str "10" }

/-! ## Option buttons and the click handler -/

/-- White space as skipped by `parseInt` (the `StrWhiteSpaceChar` production),
by code point. -/
def isStrWhiteSpace (c : Char) : Bool :=
  [9, 10, 11, 12, 13, 32, 160, 5760, 8232, 8233, 8239, 8287, 12288, 65279].contains c.toNat ||
    (decide (8192 ≤ c.toNat) && decide (c.toNat ≤ 8202))

/-- The value of a character as a digit of the given radix: `0`-`9`, then
letters of either case. -/
def digitValue (radix : Nat) (c : Char) : Option Nat :=
  let d : Option Nat :=
    if 48 ≤ c.toNat ∧ c.toNat ≤ 57 then some (c.toNat - 48)
    else if 97 ≤ c.toNat ∧ c.toNat ≤ 122 then some (c.toNat - 87)
    else if 65 ≤ c.toNat ∧ c.toNat ≤ 90 then some (c.toNat - 55)
    else none
  d.filter fun v => decide (v < radix)

/-- The value of the longest leading run of digits, starting from the value
`acc` read so far; `none` when no digit was read. -/
def parseDigits (radix : Nat) : List Char → Option Nat → Option Nat
  | [], acc => acc
  | c :: cs, acc =>
    match digitValue radix c with
    | some d => parseDigits radix cs (some (acc.getD 0 * radix + d))
    | none => acc

/-- Whether the characters start with the hexadecimal marker `0x` or `0X`. -/
def hasHexMarker : List Char → Bool
  | c :: d :: _ => decide (c.toNat = 48) && (decide (d.toNat = 120) || decide (d.toNat = 88))
  | _ => false

/-- The built-in `parseInt` with no radix argument, on the characters of its
input: skip white space, read a sign (`-` is code point 45, `+` is 43), read a
`0x` or `0X` marker, then the longest run of digits; `NaN` when that run is
empty, otherwise the double nearest to the signed value of the run. -/
def parseIntChars (cs : List Char) : JsNum :=
  let s := cs.dropWhile isStrWhiteSpace
  let negative : Bool := s.head?.map Char.toNat == some 45
  let s1 : List Char :=
    match s with
    | c :: r => if c.toNat = 45 ∨ c.toNat = 43 then r else s
    | [] => s
  match (if hasHexMarker s1 then parseDigits 16 (s1.drop 2) none
      else parseDigits 10 s1 none) with
  | none => JsNum.nan
  | some v => JsNum.roundRatio (if negative then -(v : Int) else (v : Int)) 1

/-- The call `parseInt(v)` on a data attribute: an absent attribute reads as
`undefined`, which converts to the string `"undefined"`. -/
def parseInt (v : Option String) : JsNum :=
  parseIntChars (v.getD "undefined").data

/-- The decimal digits of an integer, with a leading `-` for negative
values. -/
def decimalString : Int → String
  | Int.ofNat m => String.mk (Nat.toDigits 10 m)
  | Int.negSucc m => String.mk (Char.ofNat 45 :: Nat.toDigits 10 (m + 1))

/-- The text an integer-valued number takes inside a template literal. Up to
`2 ^ 53` in magnitude it is the decimal digits of the integer. Beyond that the
text is the shortest digit string that reads back as the same double, padded
with zeros below `10 ^ 21` and in exponent form (such as `1e+21`) from there
on; that text is left to the parameter `largeForm`. -/
def numberToString (largeForm : Int → String) (z : Int) : String :=
  if z.natAbs ≤ 2 ^ 53 then decimalString z else largeForm z

/-- The `data-*` attributes of an option button; `none` is an absent
attribute. -/
structure Dataset where
  questionIndex : Option String
  optionIndex : Option String
  points : Option String
  questionId : Option String
  action : Option String
  deriving DecidableEq, Repr

/-- An option button: its class tokens and data attributes. -/
structure Button where
  classList : List String
  dataset : Dataset
  deriving DecidableEq, Repr

/-- An effect of the click handler outside the quiz state. -/
inductive Effect where
  | alert (message : String)
  | scaleYesButton (noClickCount : Nat)
  | select (button : Button)
  | celebrateAnswer (button : Button)
  | heartExplosion
  deriving DecidableEq, Repr

/-- A callback registered with `setTimeout`: after `delay` milliseconds it
calls `submitAnswer` with `answer`. -/
structure Timer where
  delay : Nat
  answer : AnswerObj
  deriving DecidableEq, Repr

/-- The application together with the pending timers and the effects so
far. -/
structure Page where
  app : App
  timers : List Timer
  effects : List Effect
  deriving DecidableEq, Repr

/-- The button `renderPlayfulOptions` writes for one option: the callback it
maps over the options. -/
def playfulButton (largeForm : Int → String) (question : Question) (questionIndex : Int)
    (optionIndex : Nat) (option : QOption) : Button :=
  let isNoButton : Bool := option.action == some "escape"
  let buttonClass : List String :=
    if isNoButton then ["option-button", "playful-no-button"]
    else ["option-button", "playful-yes-button"]
  { classList := buttonClass
    dataset :=
      { questionIndex := some (numberToString largeForm questionIndex)
        optionIndex := some (numberToString largeForm (optionIndex : Int))
        points := some (numberToString largeForm option.points)
        questionId := some (numberToString largeForm question.id)
        action := some (option.action.getD "") } }

/-- The method `renderPlayfulOptions`: one button per option, in order. -/
def renderPlayfulOptions (largeForm : Int → String) (question : Question)
    (questionIndex : Int) : List Button :=
  question.options.enum.map fun (optionIndex, option) =>
    playfulButton largeForm question questionIndex optionIndex option

/-- The method `handleOptionClick`; `button` is `none` for a null argument and
`yesButtonFound` tells whether the container holds a `.playful-yes-button`.
The constant `questionIndex` the method also parses is never used. -/
def handleOptionClick (yesButtonFound : Bool) (p : Page) (button : Option Button) : Page :=
  match button with
  | none => p
  | some b =>
    if b.classList.contains "playful-no-button" then
      let app1 := { p.app with noClickCount := p.app.noClickCount + 1 }
      let effects1 := p.effects ++ [Effect.alert "Wrong choice! 💔 Try again! 💕"]
      let effects2 :=
        if yesButtonFound then effects1 ++ [Effect.scaleYesButton app1.noClickCount]
        else effects1
      { p with app := app1, effects := effects2 }
    else
      let effects1 := p.effects ++ [Effect.select b]
      let app1 :=
        if b.classList.contains "playful-yes-button" then { p.app with noClickCount := 0 }
        else p.app
      let effects2 :=
        if b.classList.contains "playful-yes-button" then
          effects1 ++ [Effect.celebrateAnswer b, Effect.heartExplosion]
        else effects1
      let optionIndex := parseInt b.dataset.optionIndex
      let points := parseInt b.dataset.points
      let questionId := parseInt b.dataset.questionId
      { app := app1
        timers := p.timers ++
          [{ delay := 300
             answer :=
               { questionId := JsVal.num questionId
                 optionIndex := JsVal.num optionIndex
                 points := JsVal.num points } }]
        effects := effects2 }

/-- Running the oldest pending timer callback at time `now`. -/
def fireTimer (questions : List Question) (now : Nat) (p : Page) : Page :=
  match p.timers with
  | [] => p
  | t :: rest =>
    { p with
      app := (submitAnswer questions now p.app (JsArg.obj t.answer)).state
      timers := rest }

/-- A sample playful question: a "Yes" option worth 10 points and an evasive
"No" option worth -5. -/
def playfulQuestion : Question :=
  { id := 3
    question := "Will you be my valentine?"
    type := "playful-choice"
    options :=
      [{ text := "Yes", points := 10, action := none },
       { text := "No", points := -5, action := some "escape" }] }

/-- The button rendered for the "Yes" option of the sample playful question,
shown as the third question. -/
def sampleYesButton : Button :=
  { classList := ["option-button", "playful-yes-button"]
    dataset :=
      { questionIndex := some "2", optionIndex := some "0", points := some "10",
        questionId := some "3", action := some "" } }

/-- The button rendered for the evasive "No" option of the sample playful
question. -/
def sampleNoButton : Button :=
  { classList := ["option-button", "playful-no-button"]
    dataset :=
      { questionIndex := some "2", optionIndex := some "1", points := some "-5",
        questionId := some "3", action := some "escape" } }

/-- A page in the middle of a quiz: second of two questions, one answer
logged, score 5, two earlier clicks on "No". -/
def samplePage : Page :=
  { app :=
      { currentQuestion := 1
        score := JsNum.ofInt 5
        answers := [{ questionId := JsVal.num (JsNum.ofInt 7),
                      selectedOption := JsVal.num (JsNum.ofInt 0),
                      points := JsVal.num (JsNum.ofInt 5), timestamp := 100 }]
        totalQuestions := 2
        noClickCount := 2
        rendered := [Screen.question 0, Screen.question 1]
        diagnostics := [] }
    timers := []
    effects := [] }

/-! ## Basic facts about the methods -/

theorem twoAndHalf_eq : twoAndHalf = 5 / 2 := by
  have h := Rat.num_div_den twoAndHalf
  rw [← h]
  norm_num [twoAndHalf]

theorem lookup_of_lt (questions : List Question) (i : Int) (h0 : 0 ≤ i)
    (h1 : i < (questions.length : Int)) : ∃ q, lookup questions i = some q := by
  have hlt : i.toNat < questions.length := by omega
  refine ⟨questions.get ⟨i.toNat, hlt⟩, ?_⟩
  simp [lookup, h0, List.getElem?_eq_getElem hlt]

theorem getQuestionHTML_of_lt (questions : List Question) (i : Int) (h0 : 0 ≤ i)
    (h1 : i < (questions.length : Int)) :
    getQuestionHTML questions i = some (Screen.question i) := by
  obtain ⟨q, hq⟩ := lookup_of_lt questions i h0 h1
  simp [getQuestionHTML, hq]

theorem showQuestion_invalid (questions : List Question) (s : App) (i : Int)
    (h : i < 0 ∨ i ≥ (s.totalQuestions : Int)) :
    showQuestion questions s i =
      Outcome.done { s with diagnostics := s.diagnostics ++ [Diagnostic.invalidIndex i] } := by
  unfold showQuestion
  simp [h]

theorem showQuestion_valid (questions : List Question) (s : App) (i : Int)
    (hs : s.totalQuestions = questions.length) (h0 : 0 ≤ i) (h1 : i < (s.totalQuestions : Int)) :
    showQuestion questions s i =
      Outcome.done { s with currentQuestion := i, rendered := s.rendered ++ [Screen.question i] } := by
  have hq := getQuestionHTML_of_lt questions i h0 (by omega)
  unfold showQuestion
  have hn : ¬ (i < 0 ∨ i ≥ (s.totalQuestions : Int)) := by omega
  simp [hn, hq]

theorem submitAnswer_not_number (questions : List Question) (now : Nat) (s : App)
    (answer : JsArg) (h : answer.points.typeof ≠ "number") :
    submitAnswer questions now s answer =
      Outcome.done { s with diagnostics := s.diagnostics ++ [Diagnostic.invalidAnswer answer] } := by
  unfold submitAnswer
  simp [h]

theorem submitAnswer_number (questions : List Question) (now : Nat) (s : App)
    (a : AnswerObj) (p : JsNum) (hp : a.points = JsVal.num p) :
    submitAnswer questions now s (JsArg.obj a) =
      match answerRecordOf questions now s a with
      | none => Outcome.threw s
      | some r =>
        if s.currentQuestion < (s.totalQuestions : Int) - 1 then
          showQuestion questions
            { s with answers := s.answers ++ [r], score := s.score.add p } (s.currentQuestion + 1)
        else
          showResults { s with answers := s.answers ++ [r], score := s.score.add p } := by
  unfold submitAnswer answerRecordOf
  simp only [JsArg.truthy, JsArg.points, JsArg.questionId, JsArg.optionIndex, hp, JsVal.typeof]
  cases a.questionId.orElse
      ((lookup questions s.currentQuestion).map fun q => JsVal.num (JsNum.ofInt q.id)) <;> simp

/-! ### Addition is exact on integers up to `2 ^ 53` -/

theorem JsNum.log2Fuel_eq : ∀ (fuel n : Nat), n ≤ fuel → JsNum.log2Fuel fuel n = Nat.log2 n := by
  intro fuel
  induction fuel with
  | zero =>
    intro n h
    have h0 : n = 0 := by omega
    subst h0
    rw [Nat.log2]
    simp [JsNum.log2Fuel]
  | succ fuel ih =>
    intro n h
    rw [Nat.log2]
    simp only [JsNum.log2Fuel]
    by_cases h2 : n < 2
    · have h3 : ¬ n ≥ 2 := by omega
      simp [h2, h3]
    · have h3 : n ≥ 2 := by omega
      simp only [h2, h3, if_false, if_true]
      rw [ih (n / 2) (by omega)]

theorem JsNum.log2_eq (n : Nat) : JsNum.log2 n = Nat.log2 n :=
  JsNum.log2Fuel_eq n n (le_refl n)

theorem JsNum.roundHalfEven_one (n : Nat) : JsNum.roundHalfEven n 1 = n := by
  simp [JsNum.roundHalfEven, Nat.mod_one]

theorem JsNum.floorLog2_one (n : Nat) (hn : n ≠ 0) :
    JsNum.floorLog2 n 1 = (Nat.log2 n : Int) := by
  have h1 : Nat.log2 1 = 0 := by
    have := (Nat.log2_lt (n := 1) (k := 1) (by decide)).2 (by decide)
    omega
  have h2 := Nat.log2_self_le hn
  unfold JsNum.floorLog2
  simp only [JsNum.log2_eq, h1]
  simp [h2]

theorem JsNum.scaled_neg (z : Int) (k : Nat) :
    JsNum.scaled (z * 2 ^ k) (-(k : Int)) = (z : Rat) := by
  by_cases hk : k = 0
  · subst hk
    simp [JsNum.scaled]
  · have h0 : ¬ (0 : Int) ≤ -(k : Int) := by omega
    simp only [JsNum.scaled, h0, if_false, neg_neg, Int.toNat_ofNat]
    rw [Rat.mkRat_eq_div]
    push_cast
    field_simp

theorem JsNum.roundMagnitude_safe (n : Nat) (h : n ≤ 2 ^ 53) :
    ∃ m ex, JsNum.roundMagnitude n 1 = some (m, ex) ∧
      JsNum.scaled (m : Int) ex = (n : Rat) ∧
      JsNum.scaled (-(m : Int)) ex = -(n : Rat) := by
  by_cases hn : n = 0
  · subst hn
    exact ⟨0, 0, by simp [JsNum.roundMagnitude], by simp [JsNum.scaled],
      by simp [JsNum.scaled]⟩
  · have hlo := Nat.log2_self_le hn
    have hL : Nat.log2 n ≤ 53 := by
      by_contra hc
      have h54 : 2 ^ 54 ≤ 2 ^ Nat.log2 n := Nat.pow_le_pow_right (by decide) (by omega)
      omega
    by_cases h53 : Nat.log2 n = 53
    · have hn53 : n = 2 ^ 53 := by
        rw [h53] at hlo
        omega
      subst hn53
      exact ⟨2 ^ 52, 1, by decide, by decide, by decide⟩
    · obtain ⟨k, hk⟩ : ∃ k : Nat, (Nat.log2 n : Int) - 52 = -(k : Int) :=
        ⟨52 - Nat.log2 n, by omega⟩
      have hmax : max ((Nat.log2 n : Int) - 52) (-1074) = -(k : Int) := by
        rw [hk]
        apply max_eq_left
        omega
      refine ⟨n * 2 ^ k, -(k : Int), ?_, ?_, ?_⟩
      · unfold JsNum.roundMagnitude
        simp only [hn, if_false, JsNum.floorLog2_one n hn, hmax]
        by_cases hk0 : k = 0
        · subst hk0
          simp [JsNum.roundHalfEven_one]
        · have h0 : ¬ (0 : Int) ≤ -(k : Int) := by omega
          simp only [h0, if_false, neg_neg, Int.toNat_ofNat, JsNum.roundHalfEven_one]
          rw [if_neg]
          rintro (h2 | ⟨h2, _⟩) <;> omega
      · have := JsNum.scaled_neg (n : Int) k
        simpa using this
      · have := JsNum.scaled_neg (-(n : Int)) k
        simpa using this

/-- Every integer of magnitude at most `2 ^ 53` is a double: rounding leaves
it unchanged. -/
theorem JsNum.roundRatio_safe (z : Int) (h : z.natAbs ≤ 2 ^ 53) :
    JsNum.roundRatio z 1 = JsNum.ofInt z := by
  obtain ⟨m, ex, h1, h2, h3⟩ := JsNum.roundMagnitude_safe z.natAbs h
  have h4 : ((z.natAbs : Nat) : Rat) = ((z.natAbs : Int) : Rat) :=
    (Int.cast_natCast z.natAbs).symm
  unfold JsNum.roundRatio JsNum.ofInt
  rw [h1]
  by_cases hz : z < 0
  · simp only [hz, if_true, h3]
    congr 1
    have h5 : ((z.natAbs : Int)) = -z := by omega
    rw [h4, h5]
    push_cast
    ring
  · simp only [hz, if_false, h2]
    congr 1
    have h5 : ((z.natAbs : Int)) = z := by omega
    rw [h4, h5]

/-- Adding two integers is exact when the sum has magnitude at most
`2 ^ 53`. -/
theorem JsNum.ofInt_add (a b : Int) (h : (a + b).natAbs ≤ 2 ^ 53) :
    (JsNum.ofInt a).add (JsNum.ofInt b) = JsNum.ofInt (a + b) := by
  have := JsNum.roundRatio_safe (a + b) h
  simpa [JsNum.add, JsNum.ofInt] using this

/-- The running totals of a list starting with `p`, seen from the total
reached after `p`. -/
theorem safeTotals_tail (z p : Int) (ps : List Int)
    (h : ∀ j, j ≤ (p :: ps).length → (z + ((p :: ps).take j).sum).natAbs ≤ 2 ^ 53) :
    (z + p).natAbs ≤ 2 ^ 53 ∧
      ∀ j, j ≤ ps.length → (z + p + (ps.take j).sum).natAbs ≤ 2 ^ 53 := by
  constructor
  · have h1 := h 1 (by simp)
    simpa using h1
  · intro j hj
    have h1 := h (j + 1) (by simpa using hj)
    simpa [add_assoc] using h1

theorem answerRecordOf_inRange (questions : List Question) (now : Nat) (s : App)
    (a : AnswerObj) (h0 : 0 ≤ s.currentQuestion)
    (h1 : s.currentQuestion < (questions.length : Int)) :
    ∃ qid, answerRecordOf questions now s a =
      some { questionId := qid, selectedOption := a.optionIndex, points := a.points,
             timestamp := now } := by
  obtain ⟨q, hq⟩ := lookup_of_lt questions s.currentQuestion h0 h1
  unfold answerRecordOf JsVal.orElse
  by_cases ht : a.questionId.truthy = true
  · exact ⟨a.questionId, by simp [ht]⟩
  · exact ⟨JsVal.num (JsNum.ofInt q.id), by simp [ht, hq]⟩

theorem submitAnswer_inProgress (questions : List Question) (now : Nat) (s : App)
    (a : AnswerObj) (p : JsNum) (hp : a.points = JsVal.num p)
    (hs : s.totalQuestions = questions.length) (h0 : 0 ≤ s.currentQuestion)
    (h1 : s.currentQuestion < (s.totalQuestions : Int)) :
    ∃ qid, submitAnswer questions now s (JsArg.obj a) =
      if s.currentQuestion < (s.totalQuestions : Int) - 1 then
        Outcome.done
          { s with
            answers := s.answers ++ [⟨qid, a.optionIndex, a.points, now⟩]
            score := s.score.add p
            currentQuestion := s.currentQuestion + 1
            rendered := s.rendered ++ [Screen.question (s.currentQuestion + 1)] }
      else
        Outcome.done
          { s with
            answers := s.answers ++ [⟨qid, a.optionIndex, a.points, now⟩]
            score := s.score.add p
            rendered := s.rendered ++
              [Screen.results (s.answers ++ [⟨qid, a.optionIndex, a.points, now⟩])] } := by
  obtain ⟨qid, hr⟩ := answerRecordOf_inRange questions now s a h0 (by omega)
  refine ⟨qid, ?_⟩
  rw [submitAnswer_number questions now s a p hp, hr]
  by_cases hlt : s.currentQuestion < (s.totalQuestions : Int) - 1
  · simp only [hlt, if_true]
    exact showQuestion_valid questions
      { s with
        answers := s.answers ++ [⟨qid, a.optionIndex, a.points, now⟩]
        score := s.score.add p } (s.currentQuestion + 1) hs (by omega) (by show _ < (s.totalQuestions : Int); omega)
  · simp only [hlt, if_false]
    rfl

theorem showQuestion_frame (questions : List Question) (s : App) (i : Int) :
    (showQuestion questions s i).state.answers = s.answers ∧
      (showQuestion questions s i).state.score = s.score ∧
      (showQuestion questions s i).state.totalQuestions = s.totalQuestions := by
  unfold showQuestion
  split_ifs
  · simp [Outcome.state]
  · cases getQuestionHTML questions i <;> simp [Outcome.state]

theorem showQuestion_inRange (questions : List Question) (s : App) (i : Int)
    (h0 : 0 ≤ s.currentQuestion) (h1 : s.currentQuestion < (s.totalQuestions : Int)) :
    0 ≤ (showQuestion questions s i).state.currentQuestion ∧
      (showQuestion questions s i).state.currentQuestion <
        ((showQuestion questions s i).state.totalQuestions : Int) := by
  unfold showQuestion
  split_ifs with h
  · simpa [Outcome.state] using ⟨h0, h1⟩
  · have h2 : 0 ≤ i ∧ i < (s.totalQuestions : Int) := by omega
    cases getQuestionHTML questions i <;> simpa [Outcome.state] using h2

theorem startQuiz_nonempty (questions : List Question) (s : App)
    (hN : 1 ≤ questions.length) :
    startQuiz questions s =
      Outcome.done
        { s with
          currentQuestion := 0
          score := JsNum.ofInt 0
          answers := []
          rendered := s.rendered ++ [Screen.question 0] } := by
  have hq := getQuestionHTML_of_lt questions 0 (le_refl 0) (by omega)
  unfold startQuiz
  simp [hq]

/-- Progress of a run of submissions with integer points: from a state with
`k` answers logged and current question `min k (N - 1)`, submitting further
answers without exceeding `N` in total keeps that shape; once `N` answers are
logged the results screen is the one shown. If the score starts at the integer
`z` and every running total stays within `2 ^ 53` in magnitude, the final score
is `z` plus the sum of the points. -/
theorem submitAll_progress (questions : List Question) :
    ∀ (answers : List (Nat × AnswerObj)) (pts : List Int) (s : App) (k : Nat) (z : Int),
      s.totalQuestions = questions.length →
      s.answers.length = k →
      s.currentQuestion = ((min k (questions.length - 1) : Nat) : Int) →
      k + answers.length ≤ questions.length →
      answers.map (fun a => a.2.points) = pts.map (fun p => JsVal.num (JsNum.ofInt p)) →
      (submitAll questions s answers).totalQuestions = questions.length ∧
      (submitAll questions s answers).answers.length = k + answers.length ∧
      (s.score = JsNum.ofInt z →
        (∀ j, j ≤ pts.length → (z + (pts.take j).sum).natAbs ≤ 2 ^ 53) →
        (submitAll questions s answers).score = JsNum.ofInt (z + pts.sum)) ∧
      (submitAll questions s answers).currentQuestion =
        ((min (k + answers.length) (questions.length - 1) : Nat) : Int) ∧
      (answers ≠ [] → k + answers.length = questions.length →
        (submitAll questions s answers).screen =
          some (Screen.results (submitAll questions s answers).answers)) := by
  intro answers
  induction answers with
  | nil =>
    intro pts s k z hs hk hc _ hpts
    cases pts with
    | nil =>
      refine ⟨by simpa [submitAll] using hs, by simpa [submitAll] using hk, ?_,
        by simpa [submitAll] using hc, by simp⟩
      intro hz _
      simpa [submitAll] using hz
    | cons p ps => simp at hpts
  | cons a rest ih =>
    intro pts s k z hs hk hc hle hpts
    cases pts with
    | nil => simp at hpts
    | cons p ps =>
      simp only [List.map_cons, List.cons.injEq] at hpts
      obtain ⟨hp, hps⟩ := hpts
      simp only [List.length_cons] at hle
      have hcur : s.currentQuestion = (k : Int) := by
        rw [hc]; congr 1; omega
      obtain ⟨qid, hsub⟩ := submitAnswer_inProgress questions a.1 s a.2 (JsNum.ofInt p) hp hs
        (by omega) (by omega)
      have hfold : submitAll questions s (a :: rest) =
          submitAll questions (submitAnswer questions a.1 s (JsArg.obj a.2)).state rest := by
        simp [submitAll]
      rw [hfold]
      by_cases hlt : s.currentQuestion < (s.totalQuestions : Int) - 1
      · rw [hsub, if_pos hlt]
        have hmin : ((min (k + 1) (questions.length - 1) : Nat) : Int) = (k : Int) + 1 := by
          have : min (k + 1) (questions.length - 1) = k + 1 := by omega
          rw [this]
          push_cast
          rfl
        have hstep := ih ps
          { s with
            answers := s.answers ++ [⟨qid, a.2.optionIndex, a.2.points, a.1⟩]
            score := s.score.add (JsNum.ofInt p)
            currentQuestion := s.currentQuestion + 1
            rendered := s.rendered ++ [Screen.question (s.currentQuestion + 1)] }
          (k + 1) (z + p) hs (by simp [hk])
          (by simp only [hcur, hmin]) (by omega) hps
        obtain ⟨h1, h2, h3, h4, h5⟩ := hstep
        simp only [Outcome.state]
        refine ⟨h1, ?_, ?_, ?_, ?_⟩
        · rw [h2]; simp only [List.length_cons]; omega
        · intro hz hsafe
          obtain ⟨hzp, hrest⟩ := safeTotals_tail z p ps hsafe
          rw [h3 (by simp only [hz]; exact JsNum.ofInt_add z p hzp) hrest]
          simp only [List.sum_cons]
          congr 1
          ring
        · rw [h4]; simp only [List.length_cons]; congr 2; omega
        · intro _ hN
          simp only [List.length_cons] at hN
          have hne : rest ≠ [] := by
            intro h0
            rw [h0] at hN
            simp only [List.length_nil] at hN
            omega
          exact h5 hne (by omega)
      · rw [hsub, if_neg hlt]
        have hrest : rest = [] := by
          cases rest with
          | nil => rfl
          | cons b bs => simp only [List.length_cons] at hle; omega
        subst hrest
        have hkN : k + 1 = questions.length := by omega
        simp only [submitAll, List.foldl_nil, Outcome.state, List.length_append,
          List.length_singleton, List.length_cons, List.length_nil, App.screen]
        refine ⟨hs, by omega, ?_, ?_, ?_⟩
        · intro hz hsafe
          have hps0 : ps = [] := by
            cases ps with
            | nil => rfl
            | cons q qs => simp at hps
          rw [hz, JsNum.ofInt_add z p (safeTotals_tail z p ps hsafe).1, hps0]
          simp
        · rw [hcur]; congr 1; omega
        · intro _ _
          simp

theorem typeof_number (v : JsVal) (h : v.typeof = "number") : ∃ p, v = JsVal.num p := by
  cases v with
  | num p => exact ⟨p, rfl⟩
  | undefined => simp [JsVal.typeof] at h
  | null => simp [JsVal.typeof] at h
  | bool b => simp [JsVal.typeof] at h
  | str t => simp [JsVal.typeof] at h

theorem step_inRange (questions : List Question) (hN : 1 ≤ questions.length) (s : App)
    (c : Command) (hs : s.totalQuestions = questions.length) (h0 : 0 ≤ s.currentQuestion)
    (h1 : s.currentQuestion < (s.totalQuestions : Int)) :
    (step questions s c).state.totalQuestions = questions.length ∧
      0 ≤ (step questions s c).state.currentQuestion ∧
      (step questions s c).state.currentQuestion <
        ((step questions s c).state.totalQuestions : Int) := by
  cases c with
  | startQuiz =>
    simp only [step]
    rw [startQuiz_nonempty questions s hN]
    simp only [Outcome.state]
    refine ⟨hs, le_refl 0, ?_⟩
    omega
  | restartQuiz =>
    simp only [step, restartQuiz, showWelcomeScreen, Outcome.state]
    refine ⟨hs, le_refl 0, ?_⟩
    omega
  | showQuestion i =>
    simp only [step]
    have hf := showQuestion_frame questions s i
    have hr := showQuestion_inRange questions s i h0 h1
    exact ⟨by rw [hf.2.2, hs], hr.1, hr.2⟩
  | submitAnswer now answer =>
    simp only [step]
    by_cases ht : answer.points.typeof = "number"
    · cases answer with
      | prim v => simp [JsArg.points, JsVal.typeof] at ht
      | obj a =>
        obtain ⟨p, hp⟩ := typeof_number a.points ht
        rw [submitAnswer_number questions now s a p hp]
        cases answerRecordOf questions now s a with
        | none => exact ⟨hs, h0, h1⟩
        | some r =>
          simp only
          split_ifs with hlt
          · have hf := showQuestion_frame questions
              { s with answers := s.answers ++ [r], score := s.score.add p }
              (s.currentQuestion + 1)
            have hr := showQuestion_inRange questions
              { s with answers := s.answers ++ [r], score := s.score.add p }
              (s.currentQuestion + 1) h0 h1
            exact ⟨by rw [hf.2.2]; exact hs, hr.1, hr.2⟩
          · exact ⟨hs, h0, h1⟩
    · rw [submitAnswer_not_number questions now s answer ht]
      exact ⟨hs, h0, h1⟩

theorem run_inRange (questions : List Question) (hN : 1 ≤ questions.length) :
    ∀ (cmds : List Command) (s : App), s.totalQuestions = questions.length →
      0 ≤ s.currentQuestion → s.currentQuestion < (s.totalQuestions : Int) →
      (run questions s cmds).totalQuestions = questions.length ∧
        0 ≤ (run questions s cmds).currentQuestion ∧
        (run questions s cmds).currentQuestion < ((run questions s cmds).totalQuestions : Int) := by
  intro cmds
  induction cmds with
  | nil => intro s hs h0 h1; exact ⟨hs, h0, h1⟩
  | cons c rest ih =>
    intro s hs h0 h1
    obtain ⟨g1, g2, g3⟩ := step_inRange questions hN s c hs h0 h1
    exact ih (step questions s c).state g1 g2 g3

/-! ## The quiz contract -/

/-- Counterexample for C1: with two questions and the integer points `2 ^ 53`
and 1, the final score is `2 ^ 53`, not the sum `2 ^ 53 + 1`: the addition at
`this.score += answer.points` rounds to the nearest double. -/
theorem quiz_run_large_points_rounded :
    largeAnswers.length = twoQuestions.length ∧
    largeAnswers.map (fun a => a.2.points) =
      [9007199254740992, 1].map (fun p => JsVal.num (JsNum.ofInt p)) ∧
    List.sum [(9007199254740992 : Int), 1] = 9007199254740993 ∧
    (submitAll twoQuestions (startQuiz twoQuestions (constructor twoQuestions)).state
        largeAnswers).score = JsNum.ofInt 9007199254740992 ∧
    (submitAll twoQuestions (startQuiz twoQuestions (constructor twoQuestions)).state
        largeAnswers).score ≠ JsNum.ofInt 9007199254740993 := by
  refine ⟨by decide, by decide, by decide, by decide, by decide⟩

/-- Claim C1, amended. For a question list of length `N ≥ 1` and `N` answers
with integer points, submitted in order from the state left by `startQuiz`
(index 0, score 0, empty log): the log has length `N` and the screen shown at
the end is the results screen; and if every running total of the points has
magnitude at most `2 ^ 53`, the final score is the sum of the points. -/
theorem quiz_run_score_sum (questions : List Question) (s : App)
    (answers : List (Nat × AnswerObj)) (pts : List Int)
    (hN : 1 ≤ questions.length) (hs : s.totalQuestions = questions.length)
    (hlen : answers.length = questions.length)
    (hpts : answers.map (fun a => a.2.points) = pts.map (fun p => JsVal.num (JsNum.ofInt p))) :
    ((startQuiz questions s).state.currentQuestion = 0 ∧
      (startQuiz questions s).state.score = JsNum.ofInt 0 ∧
      (startQuiz questions s).state.answers = []) ∧
    ((∀ j, j ≤ pts.length → ((pts.take j).sum).natAbs ≤ 2 ^ 53) →
      (submitAll questions (startQuiz questions s).state answers).score =
        JsNum.ofInt pts.sum) ∧
    (submitAll questions (startQuiz questions s).state answers).answers.length =
      questions.length ∧
    (submitAll questions (startQuiz questions s).state answers).screen =
      some (Screen.results
        (submitAll questions (startQuiz questions s).state answers).answers) := by
  rw [startQuiz_nonempty questions s hN]
  simp only [Outcome.state]
  have hne : answers ≠ [] := by
    intro h0
    rw [h0] at hlen
    simp only [List.length_nil] at hlen
    omega
  obtain ⟨_, h2, h3, _, h5⟩ := submitAll_progress questions answers pts
    { s with
      currentQuestion := 0
      score := JsNum.ofInt 0
      answers := []
      rendered := s.rendered ++ [Screen.question 0] }
    0 0 hs rfl (by simp) (by omega) hpts
  refine ⟨by simp, ?_, ?_, ?_⟩
  · intro hsafe
    rw [h3 rfl (by simpa using hsafe)]
    simp
  · rw [h2]; omega
  · exact h5 hne (by omega)

/-- Witness for C1: five questions, points 10, 5, 10, -5, 10 give score 30, a
log of length 5 and the results screen. -/
theorem quiz_run_score_sum_witness :
    (submitAll fiveQuestions (startQuiz fiveQuestions (constructor fiveQuestions)).state
        fiveAnswers).score = JsNum.ofInt 30 ∧
    (submitAll fiveQuestions (startQuiz fiveQuestions (constructor fiveQuestions)).state
        fiveAnswers).answers.length = 5 ∧
    (submitAll fiveQuestions (startQuiz fiveQuestions (constructor fiveQuestions)).state
        fiveAnswers).screen =
      some (Screen.results
        (submitAll fiveQuestions (startQuiz fiveQuestions (constructor fiveQuestions)).state
          fiveAnswers).answers) :=
  ⟨(quiz_run_score_sum fiveQuestions (constructor fiveQuestions) fiveAnswers
      [10, 5, 10, -5, 10] (by decide) rfl rfl rfl).2.1 (by decide),
   (quiz_run_score_sum fiveQuestions (constructor fiveQuestions) fiveAnswers
      [10, 5, 10, -5, 10] (by decide) rfl rfl rfl).2.2⟩

/-- Counterexample for C2: points 2.5 is not an integer, yet the call is
accepted: the record is logged, the score becomes 2.5 and the quiz moves to the
next question. The same happens for `NaN`. -/
theorem submitAnswer_nonInteger_accepted :
    (JsNum.fin twoAndHalf).isInteger = false ∧
    (constructor twoQuestions).answers = [] ∧
    (submitAnswer twoQuestions 100 (constructor twoQuestions)
        (JsArg.obj fractionalAnswer)).state.answers =
      [{ questionId := JsVal.num (JsNum.ofInt 7), selectedOption := JsVal.num (JsNum.ofInt 0),
         points := JsVal.num (JsNum.fin twoAndHalf), timestamp := 100 }] ∧
    (submitAnswer twoQuestions 100 (constructor twoQuestions)
        (JsArg.obj fractionalAnswer)).state.currentQuestion = 1 ∧
    JsNum.nan.isInteger = false ∧
    (submitAnswer twoQuestions 100 (constructor twoQuestions)
        (JsArg.obj nanAnswer)).state.answers.length = 1 ∧
    (submitAnswer twoQuestions 100 (constructor twoQuestions)
        (JsArg.obj nanAnswer)).state.score = JsNum.nan := by
  refine ⟨by decide, by decide, by decide, by decide, by decide, by decide, by decide⟩

/-- Claim C2, amended. For every state and every answer object whose points
value is not of number type, `submitAnswer` only emits a diagnostic: the
current index, the score and the answer log are unchanged. -/
theorem submitAnswer_nonNumber_unchanged (questions : List Question) (now : Nat) (s : App)
    (a : AnswerObj) (h : a.points.typeof ≠ "number") :
    (submitAnswer questions now s (JsArg.obj a)).state.currentQuestion = s.currentQuestion ∧
    (submitAnswer questions now s (JsArg.obj a)).state.score = s.score ∧
    (submitAnswer questions now s (JsArg.obj a)).state.answers = s.answers := by
  rw [submitAnswer_not_number questions now s (JsArg.obj a) h]
  exact ⟨rfl, rfl, rfl⟩

/-- Witness for C2: the string `"10"` as points. -/
theorem submitAnswer_nonNumber_unchanged_witness :
    stringAnswer.points.typeof ≠ "number" ∧
    (submitAnswer twoQuestions 100 (constructor twoQuestions)
        (JsArg.obj stringAnswer)).state.answers = (constructor twoQuestions).answers :=
  ⟨by decide,
   (submitAnswer_nonNumber_unchanged twoQuestions 100 (constructor twoQuestions) stringAnswer
      (by decide)).2.2⟩

/-- Claim C3. For every state, `submitAnswer` called with `null`, `undefined`,
or an argument whose points value is missing or not of number type returns
after a diagnostic, leaving the current index, the score, the answer log and
the rendered screens unchanged. -/
theorem submitAnswer_invalid_noop (questions : List Question) (now : Nat) (s : App)
    (answer : JsArg)
    (h : answer = JsArg.prim JsVal.null ∨ answer = JsArg.prim JsVal.undefined ∨
      answer.points.typeof ≠ "number") :
    (submitAnswer questions now s answer).returned = true ∧
    (submitAnswer questions now s answer).state.currentQuestion = s.currentQuestion ∧
    (submitAnswer questions now s answer).state.score = s.score ∧
    (submitAnswer questions now s answer).state.answers = s.answers ∧
    (submitAnswer questions now s answer).state.rendered = s.rendered ∧
    (submitAnswer questions now s answer).state.diagnostics =
      s.diagnostics ++ [Diagnostic.invalidAnswer answer] := by
  have ht : answer.points.typeof ≠ "number" := by
    rcases h with h | h | h
    · rw [h]; decide
    · rw [h]; decide
    · exact h
  rw [submitAnswer_not_number questions now s answer ht]
  exact ⟨rfl, rfl, rfl, rfl, rfl, rfl⟩

/-- Witness for C3: `submitAnswer(undefined)` on the second question. -/
theorem submitAnswer_invalid_noop_witness :
    (submitAnswer twoQuestions 100 (run twoQuestions (constructor twoQuestions)
        [Command.startQuiz, Command.showQuestion 1]) (JsArg.prim JsVal.undefined)).state.rendered =
      [Screen.question 0, Screen.question 1] :=
  (submitAnswer_invalid_noop twoQuestions 100 (run twoQuestions (constructor twoQuestions)
    [Command.startQuiz, Command.showQuestion 1]) (JsArg.prim JsVal.undefined)
    (Or.inr (Or.inl rfl))).2.2.2.2.1.trans (by decide)

/-- Claim C4. For every state and every integer `i` with `i < 0` or
`i ≥ totalQuestions`, `showQuestion i` returns after a diagnostic, leaving the
current index, the score, the answer log and the rendered screens unchanged. -/
theorem showQuestion_outOfRange_noop (questions : List Question) (s : App) (i : Int)
    (h : i < 0 ∨ i ≥ (s.totalQuestions : Int)) :
    (showQuestion questions s i).returned = true ∧
    (showQuestion questions s i).state.currentQuestion = s.currentQuestion ∧
    (showQuestion questions s i).state.score = s.score ∧
    (showQuestion questions s i).state.answers = s.answers ∧
    (showQuestion questions s i).state.rendered = s.rendered ∧
    (showQuestion questions s i).state.diagnostics =
      s.diagnostics ++ [Diagnostic.invalidIndex i] := by
  rw [showQuestion_invalid questions s i h]
  exact ⟨rfl, rfl, rfl, rfl, rfl, rfl⟩

/-- Witness for C4: `showQuestion(2)` with two questions. -/
theorem showQuestion_outOfRange_noop_witness :
    ((2 : Int) < 0 ∨ (2 : Int) ≥ ((constructor twoQuestions).totalQuestions : Int)) ∧
    (showQuestion twoQuestions (constructor twoQuestions) 2).state.currentQuestion = 0 ∧
    (showQuestion twoQuestions (constructor twoQuestions) 2).state.rendered = [] :=
  ⟨by decide,
   (showQuestion_outOfRange_noop twoQuestions (constructor twoQuestions) 2 (by decide)).2.1,
   (showQuestion_outOfRange_noop twoQuestions (constructor twoQuestions) 2 (by decide)).2.2.2.2.1⟩

/-- Claim C5. From every prior state, `restartQuiz` returns with current index
0, score 0, an empty answer log and the welcome screen shown; the resulting
state is built without reading the prior index, score or answers. -/
theorem restartQuiz_resets (s : App) :
    restartQuiz s =
      Outcome.done
        { currentQuestion := 0
          score := JsNum.ofInt 0
          answers := []
          totalQuestions := s.totalQuestions
          noClickCount := s.noClickCount
          rendered := s.rendered ++ [Screen.welcome]
          diagnostics := s.diagnostics } ∧
    (restartQuiz s).state.currentQuestion = 0 ∧
    (restartQuiz s).state.score = JsNum.ofInt 0 ∧
    (restartQuiz s).state.answers = [] ∧
    (restartQuiz s).state.screen = some Screen.welcome := by
  refine ⟨rfl, rfl, rfl, rfl, ?_⟩
  simp [restartQuiz, showWelcomeScreen, Outcome.state, App.screen]

/-- Claim C6. For a question list of length `N ≥ 1`, after `startQuiz` and
`k ≤ N` submissions with integer points the answer log has length `k`; while
`k < N` the current question index is `k`, equal to the log length, and when
`k = N` the log length equals `totalQuestions`. -/
theorem submitAll_log_invariant (questions : List Question) (s : App)
    (answers : List (Nat × AnswerObj)) (pts : List Int)
    (hN : 1 ≤ questions.length) (hs : s.totalQuestions = questions.length)
    (hk : answers.length ≤ questions.length)
    (hpts : answers.map (fun a => a.2.points) = pts.map (fun p => JsVal.num (JsNum.ofInt p))) :
    (submitAll questions (startQuiz questions s).state answers).answers.length =
      answers.length ∧
    (answers.length < questions.length →
      (submitAll questions (startQuiz questions s).state answers).currentQuestion =
        (answers.length : Int) ∧
      ((submitAll questions (startQuiz questions s).state answers).answers.length : Int) =
        (submitAll questions (startQuiz questions s).state answers).currentQuestion) ∧
    (answers.length = questions.length →
      (submitAll questions (startQuiz questions s).state answers).answers.length =
        (submitAll questions (startQuiz questions s).state answers).totalQuestions) := by
  rw [startQuiz_nonempty questions s hN]
  simp only [Outcome.state]
  obtain ⟨h1, h2, _, h4, _⟩ := submitAll_progress questions answers pts
    { s with
      currentQuestion := 0
      score := JsNum.ofInt 0
      answers := []
      rendered := s.rendered ++ [Screen.question 0] }
    0 0 hs rfl (by simp) (by omega) hpts
  rw [h1, h2, h4]
  refine ⟨by omega, ?_, ?_⟩
  · intro hlt
    have hmin : min (0 + answers.length) (questions.length - 1) = answers.length := by omega
    rw [hmin]
    exact ⟨rfl, by omega⟩
  · intro heq
    omega

/-- Witness for C6: two of five questions answered. -/
theorem submitAll_log_invariant_witness :
    (submitAll fiveQuestions (startQuiz fiveQuestions (constructor fiveQuestions)).state
        (fiveAnswers.take 2)).answers.length = 2 ∧
    (submitAll fiveQuestions (startQuiz fiveQuestions (constructor fiveQuestions)).state
        (fiveAnswers.take 2)).currentQuestion = 2 :=
  ⟨(submitAll_log_invariant fiveQuestions (constructor fiveQuestions) (fiveAnswers.take 2)
      [10, 5] (by decide) rfl (by decide) rfl).1,
   ((submitAll_log_invariant fiveQuestions (constructor fiveQuestions) (fiveAnswers.take 2)
      [10, 5] (by decide) rfl (by decide) rfl).2.1 (by decide)).1⟩

/-- Counterexample for C7: in a state whose score is the integer `2 ^ 53`, a
submission with points 1 appends its record but leaves the score at `2 ^ 53`
instead of `2 ^ 53 + 1`: the sum is rounded to the nearest double. -/
theorem submitAnswer_large_score_rounded :
    largeScoreApp.score = JsNum.ofInt 9007199254740992 ∧
    (mkAnswer 7 1 1).points = JsVal.num (JsNum.ofInt 1) ∧
    (submitAnswer twoQuestions 100 largeScoreApp (JsArg.obj (mkAnswer 7 1 1))).state.answers =
      largeScoreApp.answers ++
        [{ questionId := JsVal.num (JsNum.ofInt 7), selectedOption := JsVal.num (JsNum.ofInt 1),
           points := JsVal.num (JsNum.ofInt 1), timestamp := 100 }] ∧
    (submitAnswer twoQuestions 100 largeScoreApp (JsArg.obj (mkAnswer 7 1 1))).state.score =
      JsNum.ofInt 9007199254740992 ∧
    (submitAnswer twoQuestions 100 largeScoreApp (JsArg.obj (mkAnswer 7 1 1))).state.score ≠
      JsNum.ofInt (9007199254740992 + 1) := by
  refine ⟨by decide, by decide, by decide, by decide, by decide⟩

/-- Claim C7, amended. For every state and every answer object with integer
points `p` whose record can be built (the submitted question id is truthy, or
the current question exists to supply one), `submitAnswer` appends exactly one
record at the end of the answer log, with points `p`, the submitted option
index and the given timestamp, and sets the score to the double-precision sum
of the previous score and `p`; when the previous score is an integer `z` and
`z + p` has magnitude at most `2 ^ 53`, the new score is exactly `z + p`. -/
theorem submitAnswer_appends_record (questions : List Question) (now : Nat) (s : App)
    (a : AnswerObj) (p : Int) (hp : a.points = JsVal.num (JsNum.ofInt p))
    (hok : a.questionId.truthy = true ∨ (lookup questions s.currentQuestion).isSome = true) :
    (∃ qid, (submitAnswer questions now s (JsArg.obj a)).state.answers =
      s.answers ++ [{ questionId := qid, selectedOption := a.optionIndex,
                      points := JsVal.num (JsNum.ofInt p), timestamp := now }]) ∧
    (submitAnswer questions now s (JsArg.obj a)).state.score = s.score.add (JsNum.ofInt p) ∧
    (∀ z : Int, s.score = JsNum.ofInt z → (z + p).natAbs ≤ 2 ^ 53 →
      (submitAnswer questions now s (JsArg.obj a)).state.score = JsNum.ofInt (z + p)) := by
  have hr : ∃ qid, answerRecordOf questions now s a =
      some { questionId := qid, selectedOption := a.optionIndex,
             points := JsVal.num (JsNum.ofInt p), timestamp := now } := by
    unfold answerRecordOf JsVal.orElse
    rcases hok with ht | hl
    · exact ⟨a.questionId, by simp [ht, hp]⟩
    · by_cases ht : a.questionId.truthy = true
      · exact ⟨a.questionId, by simp [ht, hp]⟩
      · obtain ⟨q, hq⟩ := Option.isSome_iff_exists.mp hl
        exact ⟨JsVal.num (JsNum.ofInt q.id), by simp [ht, hq, hp]⟩
  obtain ⟨qid, hr⟩ := hr
  have key : (submitAnswer questions now s (JsArg.obj a)).state.answers =
        s.answers ++ [{ questionId := qid, selectedOption := a.optionIndex,
                        points := JsVal.num (JsNum.ofInt p), timestamp := now }] ∧
      (submitAnswer questions now s (JsArg.obj a)).state.score =
        s.score.add (JsNum.ofInt p) := by
    rw [submitAnswer_number questions now s a (JsNum.ofInt p) hp, hr]
    simp only
    split_ifs
    · have hf := showQuestion_frame questions
        { s with
          answers := s.answers ++ [{ questionId := qid, selectedOption := a.optionIndex,
                                     points := JsVal.num (JsNum.ofInt p), timestamp := now }]
          score := s.score.add (JsNum.ofInt p) } (s.currentQuestion + 1)
      exact ⟨hf.1, hf.2.1⟩
    · exact ⟨rfl, rfl⟩
  refine ⟨⟨qid, key.1⟩, key.2, ?_⟩
  intro z hz hsafe
  rw [key.2, hz, JsNum.ofInt_add z p hsafe]

/-- Witness for C7: on the second of two questions, with one answer logged
and score 5, a submission worth -8 points gives score -3 and a log of two
records. -/
theorem submitAnswer_appends_record_witness :
    (submitAnswer twoQuestions 300 midQuizApp
        (JsArg.obj (mkAnswer 8 1 (-8)))).state.score = JsNum.ofInt (5 + -8) ∧
    (submitAnswer twoQuestions 300 midQuizApp
        (JsArg.obj (mkAnswer 8 1 (-8)))).state.answers =
      midQuizApp.answers ++
        [{ questionId := JsVal.num (JsNum.ofInt 8), selectedOption := JsVal.num (JsNum.ofInt 1),
           points := JsVal.num (JsNum.ofInt (-8)), timestamp := 300 }] :=
  ⟨(submitAnswer_appends_record twoQuestions 300 midQuizApp (mkAnswer 8 1 (-8))
      (-8) rfl (Or.inl (by decide))).2.2 5 rfl (by decide),
   by decide⟩

/-- Claim C8. In a state with current index `i` in `[0, N)`, where
`N = totalQuestions` is the number of questions, a submission with integer
points returns; if `i + 1 < N` it sets the current index to `i + 1` and renders
exactly the question screen for `i + 1`; if `i = N - 1` it renders exactly the
results screen and no question screen. -/
theorem submitAnswer_transition (questions : List Question) (now : Nat) (s : App)
    (a : AnswerObj) (p : Int) (hp : a.points = JsVal.num (JsNum.ofInt p))
    (hs : s.totalQuestions = questions.length) (h0 : 0 ≤ s.currentQuestion)
    (h1 : s.currentQuestion < (s.totalQuestions : Int)) :
    (submitAnswer questions now s (JsArg.obj a)).returned = true ∧
    (s.currentQuestion + 1 < (s.totalQuestions : Int) →
      (submitAnswer questions now s (JsArg.obj a)).state.currentQuestion =
        s.currentQuestion + 1 ∧
      (submitAnswer questions now s (JsArg.obj a)).state.rendered =
        s.rendered ++ [Screen.question (s.currentQuestion + 1)]) ∧
    (s.currentQuestion = (s.totalQuestions : Int) - 1 →
      (submitAnswer questions now s (JsArg.obj a)).state.currentQuestion = s.currentQuestion ∧
      (submitAnswer questions now s (JsArg.obj a)).state.rendered =
        s.rendered ++
          [Screen.results (submitAnswer questions now s (JsArg.obj a)).state.answers]) := by
  obtain ⟨qid, hsub⟩ := submitAnswer_inProgress questions now s a (JsNum.ofInt p) hp hs h0 h1
  rw [hsub]
  by_cases hlt : s.currentQuestion < (s.totalQuestions : Int) - 1
  · rw [if_pos hlt]
    refine ⟨rfl, fun _ => ⟨rfl, rfl⟩, fun h => ?_⟩
    omega
  · rw [if_neg hlt]
    refine ⟨rfl, fun h => ?_, fun _ => ⟨rfl, rfl⟩⟩
    omega

/-- Witness for C8: answering the first of two questions moves to the second. -/
theorem submitAnswer_transition_witness :
    (submitAnswer twoQuestions 100 (constructor twoQuestions)
        (JsArg.obj (mkAnswer 7 1 10))).state.currentQuestion = 0 + 1 ∧
    (submitAnswer twoQuestions 100 (constructor twoQuestions)
        (JsArg.obj (mkAnswer 7 1 10))).state.rendered = [] ++ [Screen.question (0 + 1)] :=
  (submitAnswer_transition twoQuestions 100 (constructor twoQuestions) (mkAnswer 7 1 10) 10 rfl
    rfl (by decide) (by decide)).2.1 (by decide)

/-- When the submitted question id is truthy (any non-zero integer, for
instance), the appended record carries the submitted id, option index and
points. -/
theorem submitAnswer_record_of_truthy_id (questions : List Question) (now : Nat) (s : App)
    (a : AnswerObj) (p : JsNum) (hp : a.points = JsVal.num p)
    (ht : a.questionId.truthy = true) :
    (submitAnswer questions now s (JsArg.obj a)).state.answers =
      s.answers ++ [{ questionId := a.questionId, selectedOption := a.optionIndex,
                      points := a.points, timestamp := now }] := by
  have hr : answerRecordOf questions now s a =
      some { questionId := a.questionId, selectedOption := a.optionIndex,
             points := a.points, timestamp := now } := by
    simp [answerRecordOf, JsVal.orElse, ht]
  rw [submitAnswer_number questions now s a p hp, hr]
  simp only
  split_ifs
  · exact (showQuestion_frame questions _ _).1
  · rfl

/-- Claim C9, evaluated where it fails: a submitted question id of 0 is falsy,
so the record stores the id of the current question (7) in its place. -/
theorem submitAnswer_questionId_zero_replaced :
    (mkAnswer 0 1 10).questionId = JsVal.num (JsNum.ofInt 0) ∧
    (submitAnswer twoQuestions 100 (startQuiz twoQuestions (constructor twoQuestions)).state
        (JsArg.obj (mkAnswer 0 1 10))).state.answers =
      [{ questionId := JsVal.num (JsNum.ofInt 7), selectedOption := JsVal.num (JsNum.ofInt 1),
         points := JsVal.num (JsNum.ofInt 10), timestamp := 100 }] := by
  refine ⟨rfl, by decide⟩

/-- Claim C10. With at least one question, every state reached from the
constructor by any sequence of `startQuiz`, `restartQuiz`, `submitAnswer` and
`showQuestion` calls has `0 ≤ currentQuestion < totalQuestions`, so the
`isComplete` flag of `getState` is false in every such state. -/
theorem reachable_currentQuestion_inRange (questions : List Question) (cmds : List Command)
    (hN : 1 ≤ questions.length) :
    0 ≤ (run questions (constructor questions) cmds).currentQuestion ∧
    (run questions (constructor questions) cmds).currentQuestion <
      ((run questions (constructor questions) cmds).totalQuestions : Int) ∧
    (run questions (constructor questions) cmds).totalQuestions = questions.length ∧
    (getState (run questions (constructor questions) cmds)).isComplete = false := by
  obtain ⟨g1, g2, g3⟩ := run_inRange questions hN cmds (constructor questions) rfl
    (le_refl 0) (by simp only [constructor]; omega)
  refine ⟨g2, g3, g1, ?_⟩
  simp only [getState, Bool.and_eq_false_imp, decide_eq_true_eq]
  intro h
  omega

/-- Witness for C10: after both of two questions are answered the results
screen is shown, the log is full, and `isComplete` is still false. -/
theorem reachable_currentQuestion_inRange_witness :
    (run twoQuestions (constructor twoQuestions)
        [Command.startQuiz, Command.submitAnswer 100 (JsArg.obj (mkAnswer 7 0 10)),
         Command.submitAnswer 200 (JsArg.obj (mkAnswer 8 1 5))]).answers.length = 2 ∧
    (getState (run twoQuestions (constructor twoQuestions)
        [Command.startQuiz, Command.submitAnswer 100 (JsArg.obj (mkAnswer 7 0 10)),
         Command.submitAnswer 200 (JsArg.obj (mkAnswer 8 1 5))])).isComplete = false :=
  ⟨by decide,
   (reachable_currentQuestion_inRange twoQuestions
      [Command.startQuiz, Command.submitAnswer 100 (JsArg.obj (mkAnswer 7 0 10)),
       Command.submitAnswer 200 (JsArg.obj (mkAnswer 8 1 5))] (by decide)).2.2.2⟩

/-! ## Parsing what the renderer printed -/

theorem digitValue_digitChar (k : Nat) (hk : k < 10) :
    digitValue 10 (Nat.digitChar k) = some k := by
  interval_cases k <;> rfl

theorem digitChar_isDigit (k : Nat) (hk : k < 10) :
    48 ≤ (Nat.digitChar k).toNat ∧ (Nat.digitChar k).toNat ≤ 57 := by
  interval_cases k <;> decide

theorem parseDigits_toDigitsCore :
    ∀ (fuel n : Nat) (ds : List Char), n < fuel →
      parseDigits 10 (Nat.toDigitsCore 10 fuel n ds) none = parseDigits 10 ds (some n) := by
  intro fuel
  induction fuel with
  | zero => intro n ds h; omega
  | succ fuel ih =>
    intro n ds h
    have hd := digitValue_digitChar (n % 10) (Nat.mod_lt n (by decide))
    simp only [Nat.toDigitsCore]
    by_cases h0 : n / 10 = 0
    · simp only [h0, if_true, parseDigits, hd, Option.getD_none]
      congr 2
      omega
    · simp only [h0, if_false]
      rw [ih (n / 10) _ (by omega)]
      simp only [parseDigits, hd, Option.getD_some]
      congr 2
      omega

theorem toDigitsCore_isDigit :
    ∀ (fuel n : Nat) (ds : List Char), (∀ c ∈ ds, 48 ≤ c.toNat ∧ c.toNat ≤ 57) →
      ∀ c ∈ Nat.toDigitsCore 10 fuel n ds, 48 ≤ c.toNat ∧ c.toNat ≤ 57 := by
  intro fuel
  induction fuel with
  | zero => intro n ds h c hc; exact h c (by simpa [Nat.toDigitsCore] using hc)
  | succ fuel ih =>
    intro n ds h
    have hd := digitChar_isDigit (n % 10) (Nat.mod_lt n (by decide))
    have hcons : ∀ c ∈ Nat.digitChar (n % 10) :: ds, 48 ≤ c.toNat ∧ c.toNat ≤ 57 := by
      intro c hc
      rcases List.mem_cons.mp hc with h1 | h1
      · rw [h1]; exact hd
      · exact h c h1
    simp only [Nat.toDigitsCore]
    by_cases h0 : n / 10 = 0
    · simpa only [h0, if_true] using hcons
    · simpa only [h0, if_false] using ih (n / 10) _ hcons

theorem toDigitsCore_ne_nil :
    ∀ (fuel n : Nat) (ds : List Char), (0 < fuel ∨ ds ≠ []) →
      Nat.toDigitsCore 10 fuel n ds ≠ [] := by
  intro fuel
  induction fuel with
  | zero =>
    intro n ds h
    rcases h with h | h
    · omega
    · simpa [Nat.toDigitsCore] using h
  | succ fuel ih =>
    intro n ds _
    simp only [Nat.toDigitsCore]
    by_cases h0 : n / 10 = 0
    · simp [h0]
    · simp only [h0, if_false]
      exact ih (n / 10) _ (Or.inr (by simp))

theorem isStrWhiteSpace_of_isDigit (c : Char) (h : 48 ≤ c.toNat ∧ c.toNat ≤ 57) :
    isStrWhiteSpace c = false := by
  have key : ∀ n : Nat, 48 ≤ n → n ≤ 57 →
      ([9, 10, 11, 12, 13, 32, 160, 5760, 8232, 8233, 8239, 8287, 12288, 65279].contains n ||
        (decide (8192 ≤ n) && decide (n ≤ 8202))) = false := by
    intro n h1 h2
    interval_cases n <;> decide
  exact key c.toNat h.1 h.2

theorem hasHexMarker_of_isDigit (l : List Char)
    (hall : ∀ c ∈ l, 48 ≤ c.toNat ∧ c.toNat ≤ 57) : hasHexMarker l = false := by
  match l, hall with
  | [], _ => rfl
  | [_], _ => rfl
  | c :: d :: r, hall =>
    have hd := hall d (by simp)
    have h1 : ¬ d.toNat = 120 := by omega
    have h2 : ¬ d.toNat = 88 := by omega
    simp [hasHexMarker, h1, h2]

theorem parseIntChars_digits (l : List Char) (hne : l ≠ [])
    (hall : ∀ c ∈ l, 48 ≤ c.toNat ∧ c.toNat ≤ 57) :
    parseIntChars l =
      (match parseDigits 10 l none with
       | none => JsNum.nan
       | some v => JsNum.roundRatio (v : Int) 1) ∧
    parseIntChars (Char.ofNat 45 :: l) =
      (match parseDigits 10 l none with
       | none => JsNum.nan
       | some v => JsNum.roundRatio (-(v : Int)) 1) := by
  have hhex : hasHexMarker l = false := hasHexMarker_of_isDigit l hall
  match l, hne, hall, hhex with
  | c :: r, _, hall, hhex =>
    have hc := hall c (by simp)
    have hws := isStrWhiteSpace_of_isDigit c hc
    have h45 : ¬ c.toNat = 45 := by omega
    have h43 : ¬ c.toNat = 43 := by omega
    constructor
    · simp only [parseIntChars, List.dropWhile, hws, List.head?, Option.map, h45, h43, or_self,
        if_false, hhex]
      simp [h45]
    · have hm : isStrWhiteSpace (Char.ofNat 45) = false := by decide
      have hm2 : (Char.ofNat 45).toNat = 45 := by decide
      simp only [parseIntChars, List.dropWhile, hm, List.head?, Option.map, hm2, true_or,
        if_true, hhex]
      simp

/-- Parsing the decimal digits of an integer gives the double nearest to
it. -/
theorem parseInt_decimalString (z : Int) :
    parseInt (some (decimalString z)) = JsNum.roundRatio z 1 := by
  cases z with
  | ofNat m =>
    have hp := parseDigits_toDigitsCore (m + 1) m [] (by omega)
    have h := (parseIntChars_digits (Nat.toDigits 10 m)
      (toDigitsCore_ne_nil (m + 1) m [] (Or.inl (by omega)))
      (toDigitsCore_isDigit (m + 1) m [] (by simp))).1
    simp only [Nat.toDigits] at h ⊢
    simp only [parseInt, decimalString, Option.getD_some, Nat.toDigits, h, hp, parseDigits]
    rfl
  | negSucc m =>
    have hp := parseDigits_toDigitsCore (m + 1 + 1) (m + 1) [] (by omega)
    have h := (parseIntChars_digits (Nat.toDigits 10 (m + 1))
      (toDigitsCore_ne_nil (m + 1 + 1) (m + 1) [] (Or.inl (by omega)))
      (toDigitsCore_isDigit (m + 1 + 1) (m + 1) [] (by simp))).2
    simp only [Nat.toDigits] at h ⊢
    simp only [parseInt, decimalString, Option.getD_some, Nat.toDigits, h, hp, parseDigits]
    rfl

/-- An integer of magnitude at most `2 ^ 53` written into a template literal
is read back unchanged by `parseInt`. -/
theorem parseInt_numberToString (largeForm : Int → String) (z : Int)
    (h : z.natAbs ≤ 2 ^ 53) :
    parseInt (some (numberToString largeForm z)) = JsNum.ofInt z := by
  simp only [numberToString, h, if_true]
  rw [parseInt_decimalString, JsNum.roundRatio_safe z h]

/-! ## The playful question -/

theorem renderPlayfulOptions_sample (largeForm : Int → String) :
    renderPlayfulOptions largeForm playfulQuestion 2 = [sampleYesButton, sampleNoButton] := by
  rfl

theorem renderPlayfulOptions_get (largeForm : Int → String) (question : Question)
    (questionIndex : Int) (k : Nat) (o : QOption) (h : question.options.get? k = some o) :
    (renderPlayfulOptions largeForm question questionIndex).get? k =
      some (playfulButton largeForm question questionIndex k o) := by
  have hk : question.options[k]? = some o := by simpa [List.get?_eq_getElem?] using h
  simp [renderPlayfulOptions, List.get?_eq_getElem?, List.getElem?_map,
    List.getElem?_enum, hk]

/-- The button written for an option carries the no-class exactly when the
option has the action `escape` and the yes-class otherwise; when the option's
points, its position and the question's id have magnitude at most `2 ^ 53`,
its data attributes parse back to them. -/
theorem playfulButton_spec (largeForm : Int → String) (question : Question)
    (questionIndex : Int) (k : Nat) (o : QOption) :
    (playfulButton largeForm question questionIndex k o).classList.contains
        "playful-no-button" = decide (o.action = some "escape") ∧
    (playfulButton largeForm question questionIndex k o).classList.contains
        "playful-yes-button" = !decide (o.action = some "escape") ∧
    (o.points.natAbs ≤ 2 ^ 53 →
      parseInt (playfulButton largeForm question questionIndex k o).dataset.points =
        JsNum.ofInt o.points) ∧
    (k ≤ 2 ^ 53 →
      parseInt (playfulButton largeForm question questionIndex k o).dataset.optionIndex =
        JsNum.ofInt (k : Int)) ∧
    (question.id.natAbs ≤ 2 ^ 53 →
      parseInt (playfulButton largeForm question questionIndex k o).dataset.questionId =
        JsNum.ofInt question.id) := by
  refine ⟨?_, ?_, fun h => parseInt_numberToString largeForm o.points h,
    fun h => parseInt_numberToString largeForm (k : Int) (by simpa using h),
    fun h => parseInt_numberToString largeForm question.id h⟩
  · by_cases he : o.action = some "escape"
    · simp only [playfulButton, he, beq_self_eq_true, if_true, decide_True]
      decide
    · have hb : (o.action == some "escape") = false := by simpa using he
      simp only [playfulButton, hb, he, decide_False]
      decide
  · by_cases he : o.action = some "escape"
    · simp only [playfulButton, he, beq_self_eq_true, if_true, decide_True]
      decide
    · have hb : (o.action == some "escape") = false := by simpa using he
      simp only [playfulButton, hb, he, decide_False]
      decide

theorem handleOptionClick_noButton (yesButtonFound : Bool) (p : Page) (b : Button)
    (hno : b.classList.contains "playful-no-button" = true) :
    handleOptionClick yesButtonFound p (some b) =
      { p with
        app := { p.app with noClickCount := p.app.noClickCount + 1 }
        effects :=
          if yesButtonFound then
            p.effects ++ [Effect.alert "Wrong choice! 💔 Try again! 💕"] ++
              [Effect.scaleYesButton (p.app.noClickCount + 1)]
          else p.effects ++ [Effect.alert "Wrong choice! 💔 Try again! 💕"] } := by
  simp only [handleOptionClick, hno, if_true]

theorem handleOptionClick_yesButton (yesButtonFound : Bool) (p : Page) (b : Button)
    (hyes : b.classList.contains "playful-yes-button" = true)
    (hno : b.classList.contains "playful-no-button" = false) :
    handleOptionClick yesButtonFound p (some b) =
      { app := { p.app with noClickCount := 0 }
        timers := p.timers ++
          [{ delay := 300
             answer :=
               { questionId := JsVal.num (parseInt b.dataset.questionId)
                 optionIndex := JsVal.num (parseInt b.dataset.optionIndex)
                 points := JsVal.num (parseInt b.dataset.points) } }]
        effects := p.effects ++ [Effect.select b] ++
          [Effect.celebrateAnswer b, Effect.heartExplosion] } := by
  simp only [handleOptionClick, hno, hyes, Bool.false_eq_true, if_false, if_true]

/-- Clicking the button rendered for an option of a playful question: for an
option with the action `escape` nothing is scheduled; for any other option
whose points and position, like the question's id, have magnitude at most
`2 ^ 53`, one submission is scheduled, carrying the question's id, the option's
position and the option's points. -/
theorem handleOptionClick_rendered (largeForm : Int → String) (yesButtonFound : Bool)
    (p : Page) (question : Question) (questionIndex : Int) (k : Nat) (o : QOption) :
    (o.action = some "escape" →
      (handleOptionClick yesButtonFound p
        (some (playfulButton largeForm question questionIndex k o))).timers = p.timers) ∧
    (o.action ≠ some "escape" → o.points.natAbs ≤ 2 ^ 53 → k ≤ 2 ^ 53 →
      question.id.natAbs ≤ 2 ^ 53 →
      (handleOptionClick yesButtonFound p
        (some (playfulButton largeForm question questionIndex k o))).timers =
        p.timers ++ [{ delay := 300, answer := mkAnswer question.id (k : Int) o.points }]) := by
  obtain ⟨h1, h2, h3, h4, h5⟩ := playfulButton_spec largeForm question questionIndex k o
  constructor
  · intro he
    rw [handleOptionClick_noButton yesButtonFound p _ (by rw [h1]; simp [he])]
  · intro he hp hk hq
    rw [handleOptionClick_yesButton yesButtonFound p _ (by rw [h2]; simp [he])
      (by rw [h1]; simp [he]), h3 hp, h4 hk, h5 hq]
    rfl

/-- Claim C11. For every state, `handleOptionClick` on a button carrying the
`playful-no-button` class increases `noClickCount` by one and schedules
nothing, so the current question index, the score and the answer log are
unchanged; on a `playful-yes-button` (a button without the no-class) it sets
`noClickCount` to 0 and schedules exactly one submission, 300 ms later, whose
points are `parseInt` of that button's `data-points`. -/
theorem handleOptionClick_playful (yesButtonFound : Bool) (p : Page) (b : Button) :
    (b.classList.contains "playful-no-button" = true →
      (handleOptionClick yesButtonFound p (some b)).app.noClickCount =
        p.app.noClickCount + 1 ∧
      (handleOptionClick yesButtonFound p (some b)).timers = p.timers ∧
      (handleOptionClick yesButtonFound p (some b)).app.currentQuestion =
        p.app.currentQuestion ∧
      (handleOptionClick yesButtonFound p (some b)).app.score = p.app.score ∧
      (handleOptionClick yesButtonFound p (some b)).app.answers = p.app.answers) ∧
    (b.classList.contains "playful-yes-button" = true →
      b.classList.contains "playful-no-button" = false →
      (handleOptionClick yesButtonFound p (some b)).app.noClickCount = 0 ∧
      (handleOptionClick yesButtonFound p (some b)).timers =
        p.timers ++
          [{ delay := 300
             answer :=
               { questionId := JsVal.num (parseInt b.dataset.questionId)
                 optionIndex := JsVal.num (parseInt b.dataset.optionIndex)
                 points := JsVal.num (parseInt b.dataset.points) } }]) := by
  constructor
  · intro hno
    rw [handleOptionClick_noButton yesButtonFound p b hno]
    exact ⟨rfl, rfl, rfl, rfl, rfl⟩
  · intro hyes hno
    rw [handleOptionClick_yesButton yesButtonFound p b hyes hno]
    exact ⟨rfl, rfl⟩

/-- Witness for C11: on the sample page (two earlier clicks on "No"), clicking
the rendered "No" button gives a count of 3 and no timer; clicking the rendered
"Yes" button gives a count of 0 and one submission worth 10 points. -/
theorem handleOptionClick_playful_witness :
    ((handleOptionClick true samplePage (some sampleNoButton)).app.noClickCount = 2 + 1 ∧
      (handleOptionClick true samplePage (some sampleNoButton)).timers = [] ∧
      (handleOptionClick true samplePage (some sampleNoButton)).app.answers =
        samplePage.app.answers) ∧
    ((handleOptionClick true samplePage (some sampleYesButton)).app.noClickCount = 0 ∧
      (handleOptionClick true samplePage (some sampleYesButton)).timers =
        [{ delay := 300, answer := mkAnswer 3 0 10 }]) :=
  ⟨⟨((handleOptionClick_playful true samplePage sampleNoButton).1 (by decide)).1,
     ((handleOptionClick_playful true samplePage sampleNoButton).1 (by decide)).2.1,
     ((handleOptionClick_playful true samplePage sampleNoButton).1 (by decide)).2.2.2.2⟩,
   ⟨((handleOptionClick_playful true samplePage sampleYesButton).2 (by decide) (by decide)).1,
    ((handleOptionClick_playful true samplePage sampleYesButton).2 (by decide)
      (by decide)).2.trans (by decide)⟩⟩

end Valentine
